import Mathlib

/-!
Verification development for the FMC-VQA repository.

Shallow embedding of the parts of the code that the checked properties
talk about: the Gram-matrix style descriptor (src/SFVQA.py), the frame
utilities (src/VideoUtility.py), the cross-validated regression
evaluation (src/regression.py), and the pooling contract described in
the design document (the pooling module itself is not part of the
sources available here and is modelled from the design document).
All numeric data is modelled over the rationals; library routines
(sklearn, numpy, skvideo) are modelled by explicit parameters or by
faithful translations of their documented behaviour at the call sites
used by the repository.
-/

namespace FMCVQA

/-! ## Gram matrix (src/SFVQA.py, gram_matrix, lines 46-60)

A torch tensor is modelled by its shape together with its flat
row-major data buffer; a view only reinterprets the same buffer.
The source unpacks the size as b, d, h, w (failing when the rank is
not 4), views the buffer as a matrix of shape (b*d, h*w), multiplies
it with its transpose and flattens the result. -/

structure TensorN where
  shape : List Nat
  data : Nat → ℚ

/-- Embedding of gram_matrix from src/SFVQA.py. The unpacking
b, d, h, w = tensor.size() raises for any rank other than 4, which is
modelled by the error branch of the match. The view to (b*d, h*w)
reinterprets the flat buffer, so entry (r, c) of the reshaped matrix is
buffer position r*(h*w)+c; torch.mm with the transpose and
torch.flatten give a vector of length (b*d)^2 whose position
r*(b*d)+s holds the inner product of rows r and s. -/
def gram_matrix (t : TensorN) : Except String (List ℚ) :=
  match t.shape with
  | [b, d, h, w] =>
    Except.ok ((List.range ((b * d) * (b * d))).map (fun k =>
      ∑ c in Finset.range (h * w),
        t.data ((k / (b * d)) * (h * w) + c) * t.data ((k % (b * d)) * (h * w) + c)))
  | _ => Except.error "ValueError: tensor size does not unpack to 4 values"

/-- A rank-4 tensor with zero spatial extent (shape (1, 2, 0, 3)),
used to decide the error behaviour of gram_matrix. -/
def zeroSpatialTensor : TensorN :=
  { shape := [1, 2, 0, 3], data := fun _ => 0 }


/-! ## Frame utilities (src/VideoUtility.py, get_frames, lines 16-39)

The function inspects the path extension (vid_path.split by dots, last
component), picks one of three library readers or, for an unrecognized
frame color mode on a non-mp4 path, sets the generator to None; with
frame_diff set it iterates the decoded frames and collects the numpy
differences of consecutive frames. Frames decoded by the external
library are uint8 arrays, modelled as lists of naturals below 256 with
wrap-around subtraction; the decoding itself is external and appears as
the decode parameter. -/

/-- Translation of the Python expression vid_path.split by the dot
character: splitting the character list at every dot, keeping empty
pieces, exactly as str.split with an explicit separator does. -/
def splitDotAux : List Char → List Char → List (List Char)
  | [], acc => [acc.reverse]
  | c :: cs, acc =>
    if c = '.' then acc.reverse :: splitDotAux cs [] else splitDotAux cs (c :: acc)

/-- The extension the source computes at line 17: the last component of
the dot-split of the path. -/
def pyExtension (s : String) : String := String.mk ((splitDotAux s.data []).getLastD [])

/-- Wrap-around subtraction of uint8 pixel values, the behaviour of
numpy subtract on two uint8 operands. -/
def u8sub (a b : Nat) : Nat := (a % 256 + (256 - b % 256)) % 256

/-- Elementwise numpy subtraction of two frames (uint8 arrays). -/
def np_subtract (f g : List Nat) : List Nat := List.zipWith u8sub f g

/-- The three library reader calls the source can make, recording the
arguments passed at lines 21-26. -/
inductive FramesGen where
  | mp4Reader (vid_path : String)
  | yuvRgbReader (vid_path : String) (height width : Nat)
  | yuvGrayReader (vid_path : String) (height width : Nat)
deriving DecidableEq

/-- The generator-selection chain of get_frames (lines 19-28): mp4
extension wins, otherwise the frame color mode picks the rgb or gray
reader, and any other mode leaves the generator as None. -/
def get_frames_gen (vid_path : String) (frame_color_mode : String) (height width : Nat) :
    Option FramesGen :=
  if pyExtension vid_path = "mp4" then some (FramesGen.mp4Reader vid_path)
  else if frame_color_mode = "rgb" then some (FramesGen.yuvRgbReader vid_path height width)
  else if frame_color_mode = "gray" then some (FramesGen.yuvGrayReader vid_path height width)
  else none

/-- The loop body of the frame-difference branch (lines 31-38): the
first iteration only records the frame, every later iteration appends
the difference of the current frame and the recorded one. -/
def frameDiffGo {α : Type} (sub : α → α → α) : α → List α → List α
  | _, [] => []
  | last, f :: rest => sub f last :: frameDiffGo sub f rest

/-- The frame-difference accumulation of get_frames over a decoded
frame sequence. -/
def frame_diffs {α : Type} (sub : α → α → α) : List α → List α
  | [] => []
  | f :: rest => frameDiffGo sub f rest

/-- The two result forms of get_frames: the generator object (possibly
None) when frame_diff is false, the collected difference array when
frame_diff is true. -/
inductive GetFramesResult where
  | gen (g : Option FramesGen)
  | diffs (l : List (List Nat))
deriving DecidableEq

/-- Embedding of get_frames (lines 16-39). The decode parameter stands
for the external frame decoding performed by iterating the selected
generator. -/
def get_frames (vid_path : String) (frame_color_mode : String) (height width : Nat)
    (decode : Option FramesGen → List (List Nat)) (frame_diff : Bool) : GetFramesResult :=
  if frame_diff then
    GetFramesResult.diffs
      (frame_diffs np_subtract (decode (get_frames_gen vid_path frame_color_mode height width)))
  else GetFramesResult.gen (get_frames_gen vid_path frame_color_mode height width)

/-! ## Grouped split for the LIVE dataset (src/regression.py, live_dataset_regression, lines 84-103)

The source fills a 150-entry group array in blocks of 15 (the slice
starting at i receives the group id i/15 for i = 0, 15, ..., 135) and
hands it to a GroupShuffleSplit with n_splits=50 and train_size=0.8.
The library splitter draws, per repetition, a random subset of whole
groups as the held-out test groups (10 - floor(0.8 * 10) = 2 of the 10
groups) and yields the ascending indices whose group lies outside
respectively inside that subset; the random draw is modelled by the
choice parameter. -/

/-- The group-id array built by the loop at lines 88-91: ten contiguous
blocks of fifteen equal ids. -/
def liveGroups : List Nat := ((List.range 10).map (fun g => List.replicate 15 g)).flatten

/-- Number of training groups the library derives from train_size=0.8
over the 10 LIVE groups: the floor of 0.8 * 10. -/
def gssTrainGroupCount : Nat := Int.toNat ⌊(8 / 10 : ℚ) * 10⌋

/-- Number of held-out test groups per repetition: the remaining
groups. -/
def gssTestGroupCount : Nat := 10 - gssTrainGroupCount

/-- Test indices of one repetition: all positions whose group id lies
in the drawn test-group subset, in ascending order. -/
def gssTestIdx (groups : List Nat) (testGroups : List Nat) : List Nat :=
  (List.range groups.length).filter (fun i => decide (groups.getD i 0 ∈ testGroups))

/-- Train indices of one repetition: all positions whose group id lies
outside the drawn test-group subset, in ascending order. -/
def gssTrainIdx (groups : List Nat) (testGroups : List Nat) : List Nat :=
  (List.range groups.length).filter (fun i => decide (groups.getD i 0 ∉ testGroups))

/-- The 50 (train, test) index-set pairs produced by the loop at line
96, as a function of the 50 random test-group draws. -/
def liveSplits (choice : Nat → List Nat) : List (List Nat × List Nat) :=
  (List.range 50).map
    (fun r => (gssTrainIdx liveGroups (choice r), gssTestIdx liveGroups (choice r)))

/-! ## Repeated k-fold split for KonVid-1k (src/regression.py, konvid1k_dataset_regression, lines 163-173)

Ten repetitions each build a fresh KFold with n_splits=5 and
shuffle=True. The library permutes the n indices (the permutation is
the model of the shuffle), cuts the permutation into 5 consecutive
chunks whose sizes are n/5 rounded up for the first n mod 5 folds, uses
chunk f as the test indices of fold f and the ascending complement as
the train indices. -/

def kfoldSizes (n k : Nat) : List Nat :=
  (List.range k).map (fun f => n / k + if f < n % k then 1 else 0)

def chunksBy : List Nat → List Nat → List (List Nat)
  | [], _ => []
  | s :: rest, l => l.take s :: chunksBy rest (l.drop s)

def kfoldTestFold (n : Nat) (perm : List Nat) (f : Nat) : List Nat :=
  (chunksBy (kfoldSizes n 5) perm).getD f []

def kfoldTrain (n : Nat) (test : List Nat) : List Nat :=
  (List.range n).filter (fun i => decide (i ∉ test))

def konvidFolds (n : Nat) (perms : Nat → List Nat) : List (List Nat × List Nat) :=
  ((List.range 10).map (fun r =>
    (List.range 5).map (fun f =>
      (kfoldTrain n (kfoldTestFold n (perms r) f), kfoldTestFold n (perms r) f)))).flatten

/-! ## Per-fold standardization and regression (src/regression.py, lines 105-131 and 175-201)

Both strategies share one fold body: select train and test rows, fit a
StandardScaler per feature column on the training rows, transform both
train and test features with it, fit a second StandardScaler on the
training scores, fit the chosen regressor on the standardized training
data, predict on the standardized test features, and inverse-transform
the predictions through the score scaler. The library scaler computes
one location and one spread statistic per fitted column; both
statistics appear as the meanFn and scaleFn parameters, and the fitted
regressor as the reg parameter. -/

structure Scaler where
  mean : ℚ
  scale : ℚ
deriving DecidableEq

instance : Inhabited Scaler := ⟨⟨0, 1⟩⟩

/-- StandardScaler fit on one column: record the two statistics of the
fitted data. -/
def scalerFit (meanFn scaleFn : List ℚ → ℚ) (col : List ℚ) : Scaler :=
  { mean := meanFn col, scale := scaleFn col }

/-- StandardScaler transform of one value. -/
def scalerTransform (s : Scaler) (v : ℚ) : ℚ := (v - s.mean) / s.scale

/-- StandardScaler inverse_transform of one value. -/
def scalerInverse (s : Scaler) (v : ℚ) : ℚ := v * s.scale + s.mean

/-- The shared fold body: the locals follow the source order at lines
105-131 (and identically at 175-201). Returns the inverse-transformed
predictions and the raw test scores handed to the correlation
computations. -/
def perFold (meanFn scaleFn : List ℚ → ℚ)
    (reg : List (List ℚ) → List ℚ → List ℚ → ℚ)
    (nF : Nat) (X : Nat → List ℚ) (y : Nat → ℚ) (train test : List Nat) :
    List ℚ × List ℚ :=
  let X_train := train.map X
  let y_train := train.map y
  let X_test := test.map X
  let y_test := test.map y
  let sc_X := (List.range nF).map
    (fun j => scalerFit meanFn scaleFn (X_train.map (fun r => r.getD j 0)))
  let X_train_std := X_train.map
    (fun r => (List.range nF).map (fun j => scalerTransform (sc_X.getD j default) (r.getD j 0)))
  let X_test_std := X_test.map
    (fun r => (List.range nF).map (fun j => scalerTransform (sc_X.getD j default) (r.getD j 0)))
  let sc_y := scalerFit meanFn scaleFn y_train
  let y_train_std := y_train.map (scalerTransform sc_y)
  let preds := X_test_std.map (reg X_train_std y_train_std)
  let y_pred := preds.map (scalerInverse sc_y)
  (y_pred, y_test)

/-- Follows the spec wording: a feature standardizer fitted on the
training features only, one scaler per feature column, computed from
the training rows alone. -/
def trainFittedScalers (meanFn scaleFn : List ℚ → ℚ) (nF : Nat) (X : Nat → List ℚ)
    (train : List Nat) : List Scaler :=
  (List.range nF).map
    (fun j => scalerFit meanFn scaleFn ((train.map X).map (fun r => r.getD j 0)))

/-- Follows the spec wording: apply one fitted transform to a feature
row, column by column. -/
def applyScalers (scalers : List Scaler) (nF : Nat) (r : List ℚ) : List ℚ :=
  (List.range nF).map (fun j => scalerTransform (scalers.getD j default) (r.getD j 0))

/-- Follows the spec wording: a separate standardizer fitted on the
training scores. -/
def trainFittedScoreScaler (meanFn scaleFn : List ℚ → ℚ) (y : Nat → ℚ)
    (train : List Nat) : Scaler :=
  scalerFit meanFn scaleFn (train.map y)

/-- Follows the spec wording: predictions on test features scaled with
the train-fitted feature scalers, inverse-transformed through the
train-fitted score scaler back to the original score scale. -/
def specFoldPredictions (meanFn scaleFn : List ℚ → ℚ)
    (reg : List (List ℚ) → List ℚ → List ℚ → ℚ)
    (nF : Nat) (X : Nat → List ℚ) (y : Nat → ℚ) (train test : List Nat) : List ℚ :=
  (test.map X).map (fun r =>
    scalerInverse (trainFittedScoreScaler meanFn scaleFn y train)
      (reg
        ((train.map X).map (applyScalers (trainFittedScalers meanFn scaleFn nF X train) nF))
        ((train.map y).map (scalerTransform (trainFittedScoreScaler meanFn scaleFn y train)))
        (applyScalers (trainFittedScalers meanFn scaleFn nF X train) nF r)))

/-! ## Regressor selection by name (src/regression.py, lines 113-121, 185-193 and 227-240)

live_dataset_regression compares the regression_method string with svr
and nn directly; konvid1k_dataset_regression lowercases it first. The
entry point regression uppercases the dataset name to dispatch, and in
both branches calls the strategy function with the literal string svr
as the regression method, regardless of the regression_method argument
it received. -/

/-- Translation of the Python string method upper. -/
def pyUpper (s : String) : String := String.mk (s.data.map Char.toUpper)

/-- Translation of the Python string method lower. -/
def pyLower (s : String) : String := String.mk (s.data.map Char.toLower)

/-- The two regressor variants a fold can fit. -/
inductive Regressor where
  | svr
  | nn
deriving DecidableEq

/-- Which regressor one LIVE fold fits for a given method string
(lines 113-121); when neither branch matches, no regressor is bound.  -/
def liveFoldRegressor (regression_method : String) : Option Regressor :=
  if regression_method = "svr" then some Regressor.svr
  else if regression_method = "nn" then some Regressor.nn
  else none

/-- Which regressor one KonVid-1k fold fits for a given method string
(lines 185-193, after lowercasing). -/
def konvidFoldRegressor (regression_method : String) : Option Regressor :=
  if pyLower regression_method = "svr" then some Regressor.svr
  else if pyLower regression_method = "nn" then some Regressor.nn
  else none

/-- Which regressor each fold fits when going through the entry point
regression (lines 227-240): both dispatch branches pass the literal
string svr to the strategy function, ignoring the regression_method
argument. -/
def regressionFoldRegressor (_regression_method dataset : String) : Option Regressor :=
  if pyUpper dataset = "LIVE" then liveFoldRegressor "svr"
  else if pyUpper dataset = "KONVID1K" then konvidFoldRegressor "svr"
  else none

/-! ## Splitter construction arguments (src/regression.py, lines 92-96 and 165-170) -/

/-- The arguments of the GroupShuffleSplit constructor, including the
random_state seed parameter the library accepts. -/
structure GroupShuffleSplitArgs where
  n_splits : Nat
  train_size : ℚ
  random_state : Option Nat
deriving DecidableEq

/-- The GroupShuffleSplit construction at line 92: n_splits=50,
train_size=0.8, and no random_state argument, so the seed keeps its
default None. -/
def liveGssArgs : GroupShuffleSplitArgs :=
  { n_splits := 50, train_size := 8 / 10, random_state := none }

/-- The arguments of the KFold constructor, including the random_state
seed parameter the library accepts. -/
structure KFoldArgs where
  n_splits : Nat
  shuffle : Bool
  random_state : Option Nat
deriving DecidableEq

/-- The KFold construction at line 168: n_splits=5, shuffle=True, and
no random_state argument, so the seed keeps its default None. -/
def konvidKFoldArgs : KFoldArgs :=
  { n_splits := 5, shuffle := true, random_state := none }

/-! ## Video pooling -/

/-- Modelled from the spec: the pooling module (imported as pooling in
src/run.py and invoked as pooling.simple_pooling) is not among the
source files available here, so the VideoPooler contract is taken from
the design document: elementwise max or mean pooling of the frame
descriptors of one video, and an explicit DataShapeError on an empty
frame descriptor sequence, never a silent zero vector. -/
def pool_video (frames : List (List ℚ)) (pool_type : String) : Except String (List ℚ) :=
  match frames with
  | [] => Except.error "DataShapeError: empty frame descriptor sequence"
  | f :: rest =>
    if pool_type = "max" then
      Except.ok (rest.foldl (fun acc g => List.zipWith max acc g) f)
    else if pool_type = "mean" then
      Except.ok ((rest.foldl (fun acc g => List.zipWith (fun a b => a + b) acc g) f).map
        (fun v => v / ((1 + rest.length : Nat) : ℚ)))
    else Except.error "ConfigurationError: unsupported pooling method"

/-! ## Helper lemmas -/

lemma gssTestGroupCount_eq_two : gssTestGroupCount = 2 := by
  rw [gssTestGroupCount, gssTrainGroupCount]
  norm_num
  decide

lemma getD_map_range {α : Type} (f : Nat → α) (m k : Nat) (d : α) (h : k < m) :
    ((List.range m).map f).getD k d = f k := by
  rw [List.getD_eq_getElem?_getD, List.getElem?_map, List.getElem?_range h]
  rfl

/-- C2: for every activation tensor of shape (1, C, H, W) with H*W > 0,
gram_matrix returns a vector of length C^2 that is the flattening of a
symmetric matrix: the entry at position i*C+j equals the entry at
position j*C+i for all i, j < C. -/
theorem gram_vector_symmetric (t : TensorN) (C h w : Nat)
    (hshape : t.shape = [1, C, h, w]) (_hhw : 0 < h * w) :
    ∃ v, gram_matrix t = Except.ok v ∧ v.length = C * C ∧
      ∀ i j, i < C → j < C → v.getD (i * C + j) 0 = v.getD (j * C + i) 0 := by
  obtain ⟨sh, data⟩ := t
  simp only at hshape
  subst hshape
  refine ⟨_, rfl, ?_, ?_⟩
  · simp
  · intro i j hi hj
    have hC : 0 < C := Nat.lt_of_le_of_lt (Nat.zero_le i) hi
    have key : ∀ a b : Nat, a < C → b < C → a * C + b < (1 * C) * (1 * C) := by
      intro a b ha hb
      have hab : a * C + b < (a + 1) * C := by
        calc a * C + b < a * C + C := Nat.add_lt_add_left hb _
          _ = (a + 1) * C := by ring
      have h2 : (a + 1) * C ≤ C * C := Nat.mul_le_mul_right C (Nat.succ_le_of_lt ha)
      simpa using lt_of_lt_of_le hab h2
    have divmod : ∀ a b : Nat, b < C →
        (a * C + b) / (1 * C) = a ∧ (a * C + b) % (1 * C) = b := by
      intro a b hb
      constructor
      · rw [one_mul, add_comm, Nat.add_mul_div_right _ _ hC, Nat.div_eq_of_lt hb,
          Nat.zero_add]
      · rw [one_mul, add_comm, Nat.add_mul_mod_self_right, Nat.mod_eq_of_lt hb]
    rw [getD_map_range _ _ _ _ (key i j hi hj), getD_map_range _ _ _ _ (key j i hj hi)]
    rw [(divmod i j hj).1, (divmod i j hj).2, (divmod j i hi).1, (divmod j i hi).2]
    exact Finset.sum_congr rfl (fun c _ => mul_comm _ _)

/-- Witness for gram_vector_symmetric at the concrete tensor of shape
(1, 2, 2, 1) whose buffer holds 0, 1, 2, 3. -/
theorem gram_vector_symmetric_witness :
    ∃ v, gram_matrix ⟨[1, 2, 2, 1], fun n => (n : ℚ)⟩ = Except.ok v ∧
      v.length = 2 * 2 ∧
      ∀ i j, i < 2 → j < 2 → v.getD (i * 2 + j) 0 = v.getD (j * 2 + i) 0 :=
  gram_vector_symmetric ⟨[1, 2, 2, 1], fun n => (n : ℚ)⟩ 2 2 1 rfl (by decide)

/-- C3 counterexample: on the rank-4 tensor of shape (1, 2, 0, 3), whose
spatial extent H*W is zero, gram_matrix does not raise: it returns the
all-zero vector of length 4. The view to (2, 0) and the matrix product
with the transpose are both legal on a zero-element tensor, so the claim
that a zero spatial extent raises an error is false on the code. -/
theorem gram_zero_spatial_returns_vector :
    gram_matrix zeroSpatialTensor = Except.ok [0, 0, 0, 0] := by
  simp [gram_matrix, zeroSpatialTensor, List.range_succ]

/-- C3 amended: gram_matrix raises exactly when the input does not have
rank 4 (the unpacking b, d, h, w = tensor.size() fails); a rank-4 input
with zero spatial extent does not raise and instead yields the all-zero
vector of length C^2. -/
theorem gram_rank_error_and_zero_spatial_ok (t : TensorN) :
    (t.shape.length ≠ 4 →
      gram_matrix t = Except.error "ValueError: tensor size does not unpack to 4 values") ∧
    (∀ C h w, t.shape = [1, C, h, w] → h * w = 0 →
      gram_matrix t = Except.ok (List.replicate (C * C) 0)) := by
  constructor
  · intro hrank
    obtain ⟨sh, data⟩ := t
    simp only at hrank
    rcases sh with _ | ⟨a, _ | ⟨b, _ | ⟨c, _ | ⟨d, _ | ⟨e, rest⟩⟩⟩⟩⟩ <;>
      first
        | rfl
        | exact absurd rfl hrank
  · intro C h w hshape hhw
    obtain ⟨sh, data⟩ := t
    simp only at hshape
    subst hshape
    simp [gram_matrix, hhw, List.map_const']

/-- Witness for gram_rank_error_and_zero_spatial_ok: a rank-3 tensor is
rejected, and the shape (1, 2, 0, 3) tensor yields the zero vector of
length 4. -/
theorem gram_rank_error_and_zero_spatial_ok_witness :
    gram_matrix ⟨[1, 2, 0], fun _ => 0⟩ =
      Except.error "ValueError: tensor size does not unpack to 4 values" ∧
    gram_matrix zeroSpatialTensor = Except.ok (List.replicate (2 * 2) 0) :=
  ⟨(gram_rank_error_and_zero_spatial_ok ⟨[1, 2, 0], fun _ => 0⟩).1 (by decide),
   (gram_rank_error_and_zero_spatial_ok zeroSpatialTensor).2 2 0 3 rfl rfl⟩


lemma frameDiffGo_eq_zipWith {α : Type} (sub : α → α → α) (last : α) (l : List α) :
    frameDiffGo sub last l = List.zipWith sub l (last :: l) := by
  induction l generalizing last with
  | nil => rfl
  | cons f rest ih => simp [frameDiffGo, ih]

lemma getD_zipWith {α : Type} (f : α → α → α) (a b : List α) (i : Nat) (d : α)
    (ha : i < a.length) (hb : i < b.length) :
    (List.zipWith f a b).getD i d = f (a.getD i d) (b.getD i d) := by
  induction a generalizing b i with
  | nil => simp at ha
  | cons x xs ih =>
    cases b with
    | nil => simp at hb
    | cons y ys =>
      cases i with
      | zero => rfl
      | succ k =>
        simp only [List.zipWith_cons_cons, List.getD_cons_succ]
        exact ih ys k (by simpa using ha) (by simpa using hb)

lemma frame_diffs_spec {α : Type} (sub : α → α → α) (frames : List α) (d : α) :
    (frame_diffs sub frames).length = frames.length - 1 ∧
    ∀ i, i + 1 < frames.length →
      (frame_diffs sub frames).getD i d = sub (frames.getD (i + 1) d) (frames.getD i d) := by
  cases frames with
  | nil => exact ⟨rfl, fun i hi => absurd hi (by simp)⟩
  | cons f rest =>
    rw [frame_diffs, frameDiffGo_eq_zipWith]
    constructor
    · simp
    · intro i hi
      have hi' : i < rest.length := by simpa using hi
      rw [getD_zipWith _ _ _ _ _ hi' (by simp; omega)]
      simp

/-- C9: for every finite decoded frame sequence of length n with
n at least 1, get_frames in consecutive-difference mode produces
exactly n - 1 items, and item i is the elementwise (uint8, numpy)
difference of frame i + 1 and frame i. -/
theorem frame_diff_mode_spec (vid_path frame_color_mode : String) (height width : Nat)
    (decode : Option FramesGen → List (List Nat)) (n : Nat) (_hn : 1 ≤ n)
    (hlen : (decode (get_frames_gen vid_path frame_color_mode height width)).length = n) :
    ∃ l, get_frames vid_path frame_color_mode height width decode true =
        GetFramesResult.diffs l ∧
      l.length = n - 1 ∧
      ∀ i, i + 1 < n →
        l.getD i [] =
          np_subtract
            ((decode (get_frames_gen vid_path frame_color_mode height width)).getD (i + 1) [])
            ((decode (get_frames_gen vid_path frame_color_mode height width)).getD i []) := by
  refine ⟨_, rfl, ?_, ?_⟩
  · rw [(frame_diffs_spec np_subtract _ ([] : List Nat)).1, hlen]
  · intro i hi
    exact (frame_diffs_spec np_subtract _ []).2 i (by rw [hlen]; exact hi)

/-- Witness for frame_diff_mode_spec on a concrete three-frame video:
the difference mode yields two items. -/
theorem frame_diff_mode_spec_witness :
    ∃ l, get_frames "a.yuv" "rgb" 432 768 (fun _ => [[10], [5], [7]]) true =
        GetFramesResult.diffs l ∧
      l.length = 3 - 1 ∧
      ∀ i, i + 1 < 3 →
        l.getD i [] =
          np_subtract
            (((fun _ => [[10], [5], [7]]) (get_frames_gen "a.yuv" "rgb" 432 768)).getD (i + 1) [])
            (((fun _ => [[10], [5], [7]]) (get_frames_gen "a.yuv" "rgb" 432 768)).getD i []) :=
  frame_diff_mode_spec "a.yuv" "rgb" 432 768 (fun _ => [[10], [5], [7]]) 3
    (by decide) rfl

/-- C10: for every non-mp4 path with frame_diff false, a frame color
mode other than rgb or gray makes get_frames return the null generator
None, with no error raised (the function is total and returns a value). -/
theorem unknown_color_mode_null_generator (vid_path frame_color_mode : String)
    (height width : Nat) (decode : Option FramesGen → List (List Nat))
    (hext : pyExtension vid_path ≠ "mp4")
    (hrgb : frame_color_mode ≠ "rgb") (hgray : frame_color_mode ≠ "gray") :
    get_frames vid_path frame_color_mode height width decode false =
      GetFramesResult.gen none := by
  simp [get_frames, get_frames_gen, hext, hrgb, hgray]

/-- Witness for unknown_color_mode_null_generator at the concrete path
video.yuv with the unrecognized mode bgr. -/
theorem unknown_color_mode_null_generator_witness :
    get_frames "video.yuv" "bgr" 0 0 (fun _ => []) false = GetFramesResult.gen none :=
  unknown_color_mode_null_generator "video.yuv" "bgr" 0 0 (fun _ => [])
    (by decide) (by decide) (by decide)

set_option maxRecDepth 4000 in
/-- C1: the 150 LIVE video indices fall into 10 contiguous groups of 15
with group id equal to index divided by 15, the splitter yields 50
repetitions each drawing 10 - floor(0.8 * 10) = 2 whole held-out
groups, and in every repetition no group id occurs both among the
groups of the train indices and among the groups of the test indices. -/
theorem live_grouped_split_no_leakage (choice : Nat → List Nat)
    (_hsize : ∀ r, r < 50 → (choice r).length = gssTestGroupCount) :
    liveGroups.length = 150 ∧
    (∀ j, j < 150 → liveGroups.getD j 0 = j / 15) ∧
    (liveSplits choice).length = 50 ∧
    (∀ r, r < 50 → ∀ g : Nat,
      ¬ (g ∈ ((liveSplits choice).getD r ([], [])).1.map (fun i => liveGroups.getD i 0) ∧
         g ∈ ((liveSplits choice).getD r ([], [])).2.map (fun i => liveGroups.getD i 0))) := by
  refine ⟨by decide, by decide, by simp [liveSplits], ?_⟩
  intro r hr g hg
  obtain ⟨hgtr, hgte⟩ := hg
  rw [show (liveSplits choice).getD r ([], []) =
      (gssTrainIdx liveGroups (choice r), gssTestIdx liveGroups (choice r)) from
    getD_map_range _ _ _ _ hr] at hgtr hgte
  simp only [gssTrainIdx, gssTestIdx, List.mem_map, List.mem_filter,
    decide_eq_true_eq] at hgtr hgte
  obtain ⟨i, ⟨-, hnotin⟩, hgi⟩ := hgtr
  obtain ⟨j, ⟨-, hin⟩, hgj⟩ := hgte
  rw [hgi] at hnotin
  rw [hgj] at hin
  exact hnotin hin

/-- Witness for live_grouped_split_no_leakage at the concrete draw that
holds out groups 0 and 1 in every repetition. -/
theorem live_grouped_split_no_leakage_witness :
    liveGroups.length = 150 ∧
    (∀ j, j < 150 → liveGroups.getD j 0 = j / 15) ∧
    (liveSplits (fun _ => [0, 1])).length = 50 ∧
    (∀ r, r < 50 → ∀ g : Nat,
      ¬ (g ∈ ((liveSplits (fun _ => [0, 1])).getD r ([], [])).1.map
            (fun i => liveGroups.getD i 0) ∧
         g ∈ ((liveSplits (fun _ => [0, 1])).getD r ([], [])).2.map
            (fun i => liveGroups.getD i 0))) :=
  live_grouped_split_no_leakage (fun _ => [0, 1])
    (fun _ _ => by rw [gssTestGroupCount_eq_two]; rfl)

lemma chunksBy_length (sizes : List Nat) (l : List Nat) :
    (chunksBy sizes l).length = sizes.length := by
  induction sizes generalizing l with
  | nil => rfl
  | cons s rest ih => simp [chunksBy, ih]

lemma chunksBy_flatten (sizes : List Nat) (l : List Nat) :
    (chunksBy sizes l).flatten = l.take sizes.sum := by
  induction sizes generalizing l with
  | nil => simp [chunksBy]
  | cons s rest ih =>
    simp only [chunksBy, List.flatten_cons, ih, List.sum_cons, List.take_add]

lemma chunksBy_subset (sizes : List Nat) (l : List Nat) :
    ∀ c ∈ chunksBy sizes l, ∀ x ∈ c, x ∈ l := by
  induction sizes generalizing l with
  | nil => simp [chunksBy]
  | cons s rest ih =>
    intro c hc x hx
    rw [chunksBy, List.mem_cons] at hc
    rcases hc with rfl | hc
    · exact List.take_subset s l hx
    · exact List.drop_subset s l (ih (l.drop s) c hc x hx)

lemma chunksBy_pairwise_disjoint (sizes : List Nat) (l : List Nat) (h : l.Nodup) :
    (chunksBy sizes l).Pairwise (fun a b => ∀ x ∈ a, x ∉ b) := by
  induction sizes generalizing l with
  | nil => exact List.Pairwise.nil
  | cons s rest ih =>
    rw [chunksBy]
    refine List.Pairwise.cons ?_ (ih (l.drop s) (List.Nodup.sublist (List.drop_sublist s l) h))
    intro c hc x hxtake hxc
    have hxdrop : x ∈ l.drop s := chunksBy_subset rest (l.drop s) c hc x hxc
    exact (List.disjoint_take_drop h (le_refl s)) hxtake hxdrop

lemma kfoldSizes_sum (n : Nat) : (kfoldSizes n 5).sum = n := by
  have h5 : (List.range 5) = [0, 1, 2, 3, 4] := rfl
  rw [kfoldSizes, h5]
  simp only [List.map_cons, List.map_nil, List.sum_cons, List.sum_nil]
  have hmod : n % 5 < 5 := Nat.mod_lt _ (by norm_num)
  have hdiv : n % 5 + 5 * (n / 5) = n := Nat.mod_add_div n 5
  split_ifs <;> omega

lemma kfold_mem_exactly_one (n : Nat) (perm : List Nat) (hperm : perm.Perm (List.range n))
    (i : Nat) (hi : i < n) :
    ∃! f, f < 5 ∧ i ∈ kfoldTestFold n perm f := by
  have hlen : perm.length = n := by rw [hperm.length_eq, List.length_range]
  have hflat : (chunksBy (kfoldSizes n 5) perm).flatten = perm := by
    rw [chunksBy_flatten, kfoldSizes_sum, ← hlen, List.take_length]
  have hnodup : perm.Nodup := hperm.nodup_iff.2 (List.nodup_range n)
  have hchlen : (chunksBy (kfoldSizes n 5) perm).length = 5 := by
    rw [chunksBy_length]; simp [kfoldSizes]
  have hpw := chunksBy_pairwise_disjoint (kfoldSizes n 5) perm hnodup
  have himem : i ∈ (chunksBy (kfoldSizes n 5) perm).flatten := by
    rw [hflat]; exact hperm.mem_iff.2 (List.mem_range.2 hi)
  rw [List.mem_flatten] at himem
  obtain ⟨c, hc, hic⟩ := himem
  obtain ⟨f, hf, hcf⟩ := List.mem_iff_getElem.1 hc
  have hf5 : f < 5 := hchlen ▸ hf
  have hgetD : ∀ g (hg : g < (chunksBy (kfoldSizes n 5) perm).length),
      kfoldTestFold n perm g = (chunksBy (kfoldSizes n 5) perm)[g] := by
    intro g hg
    rw [kfoldTestFold, List.getD_eq_getElem?_getD, List.getElem?_eq_getElem hg]
    rfl
  refine ⟨f, ⟨hf5, ?_⟩, ?_⟩
  · rw [hgetD f hf, hcf]
    exact hic
  · intro g hg
    obtain ⟨hg5, hgmem⟩ := hg
    by_contra hne
    have hglen : g < (chunksBy (kfoldSizes n 5) perm).length := hchlen ▸ hg5
    rw [hgetD g hglen] at hgmem
    have hfmem : i ∈ (chunksBy (kfoldSizes n 5) perm)[f] := by rw [hcf]; exact hic
    rcases Nat.lt_or_ge g f with hlt | hge
    · exact (List.pairwise_iff_getElem.1 hpw g f hglen hf hlt) i hgmem hfmem
    · have hfg : f < g := lt_of_le_of_ne hge fun e => hne e.symm
      exact (List.pairwise_iff_getElem.1 hpw f g hf hglen hfg) i hfmem hgmem

/-- C4: for any shuffles, each of the 10 repetitions splits the n video
indices into 5 folds so that every index lies in exactly one test fold
of that repetition, the train indices of every fold exclude its test
indices, and 5 times 10 = 50 fold evaluations are produced in total. -/
theorem konvid_kfold_partition (n : Nat) (perms : Nat → List Nat)
    (hperm : ∀ r, r < 10 → (perms r).Perm (List.range n)) :
    (konvidFolds n perms).length = 50 ∧
    (∀ r, r < 10 → ∀ i, i < n → ∃! f, f < 5 ∧ i ∈ kfoldTestFold n (perms r) f) ∧
    (∀ r f i, i ∈ kfoldTrain n (kfoldTestFold n (perms r) f) →
      i ∉ kfoldTestFold n (perms r) f) := by
  refine ⟨?_, ?_, ?_⟩
  · rfl
  · intro r hr i hi
    exact kfold_mem_exactly_one n (perms r) (hperm r hr) i hi
  · intro r f i hmem
    simp only [kfoldTrain, List.mem_filter, decide_eq_true_eq] at hmem
    exact hmem.2

/-- Witness for konvid_kfold_partition at n = 6 with one concrete
shuffle used for all repetitions. -/
theorem konvid_kfold_partition_witness :
    (konvidFolds 6 (fun _ : Nat => [3, 0, 5, 2, 4, 1])).length = 50 ∧
    (∀ r, r < 10 → ∀ i, i < 6 →
      ∃! f, f < 5 ∧ i ∈ kfoldTestFold 6 ((fun _ : Nat => [3, 0, 5, 2, 4, 1]) r) f) ∧
    (∀ r f i, i ∈ kfoldTrain 6 (kfoldTestFold 6 ((fun _ : Nat => [3, 0, 5, 2, 4, 1]) r) f) →
      i ∉ kfoldTestFold 6 ((fun _ : Nat => [3, 0, 5, 2, 4, 1]) r) f) :=
  konvid_kfold_partition 6 (fun _ : Nat => [3, 0, 5, 2, 4, 1]) (fun _ _ => by show List.Perm [3, 0, 5, 2, 4, 1] (List.range 6); decide)


/-- C5: in every fold the feature standardizers are fitted on the
training rows only (changing anything outside the training rows leaves
them unchanged, so no test statistics leak into the scaling), the score
standardizer is fitted on the training scores only, the fold
predictions are exactly the regressor outputs on test features scaled
with those train-fitted scalers and inverse-transformed through the
train-fitted score scaler, and the inverse transform undoes the
transform whenever the scale statistic is nonzero, so the compared
predictions are in the original score scale. -/
theorem fold_standardization_no_leakage (meanFn scaleFn : List ℚ → ℚ)
    (reg : List (List ℚ) → List ℚ → List ℚ → ℚ) (nF : Nat)
    (X Xd : Nat → List ℚ) (y yd : Nat → ℚ) (train test : List Nat)
    (hX : ∀ i ∈ train, X i = Xd i) (hy : ∀ i ∈ train, y i = yd i) :
    trainFittedScalers meanFn scaleFn nF X train =
      trainFittedScalers meanFn scaleFn nF Xd train ∧
    trainFittedScoreScaler meanFn scaleFn y train =
      trainFittedScoreScaler meanFn scaleFn yd train ∧
    (perFold meanFn scaleFn reg nF X y train test).1 =
      specFoldPredictions meanFn scaleFn reg nF X y train test ∧
    (perFold meanFn scaleFn reg nF X y train test).2 = test.map y ∧
    (∀ s : Scaler, ∀ v : ℚ, Scaler.scale s ≠ 0 →
      scalerInverse s (scalerTransform s v) = v) := by
  have hmapX : train.map X = train.map Xd := List.map_congr_left hX
  have hmapy : train.map y = train.map yd := List.map_congr_left hy
  refine ⟨?_, ?_, ?_, rfl, ?_⟩
  · rw [trainFittedScalers, trainFittedScalers, hmapX]
  · rw [trainFittedScoreScaler, trainFittedScoreScaler, hmapy]
  · simp only [perFold, specFoldPredictions, trainFittedScalers, trainFittedScoreScaler,
      applyScalers, List.map_map]
    rfl
  · intro s v hs
    rw [scalerTransform, scalerInverse]
    field_simp

/-- Witness for fold_standardization_no_leakage on a concrete fold:
train indices 0 and 1, test index 2, and a second dataset that differs
from the first exactly on the test row. -/
theorem fold_standardization_no_leakage_witness :
    trainFittedScalers (fun l => l.sum) (fun _ => 1) 1 (fun _ : Nat => ([] : List ℚ)) [0, 1] =
      trainFittedScalers (fun l => l.sum) (fun _ => 1) 1
        (fun i : Nat => if i = 2 then [1] else []) [0, 1] ∧
    trainFittedScoreScaler (fun l => l.sum) (fun _ => 1) (fun _ : Nat => (0 : ℚ)) [0, 1] =
      trainFittedScoreScaler (fun l => l.sum) (fun _ => 1)
        (fun i : Nat => if i = 2 then 1 else 0) [0, 1] ∧
    (perFold (fun l => l.sum) (fun _ => 1) (fun _ _ _ => 0) 1
      (fun _ : Nat => ([] : List ℚ)) (fun _ : Nat => (0 : ℚ)) [0, 1] [2]).1 =
      specFoldPredictions (fun l => l.sum) (fun _ => 1) (fun _ _ _ => 0) 1
        (fun _ : Nat => ([] : List ℚ)) (fun _ : Nat => (0 : ℚ)) [0, 1] [2] ∧
    (perFold (fun l => l.sum) (fun _ => 1) (fun _ _ _ => 0) 1
      (fun _ : Nat => ([] : List ℚ)) (fun _ : Nat => (0 : ℚ)) [0, 1] [2]).2 =
      [2].map (fun _ : Nat => (0 : ℚ)) ∧
    (∀ s : Scaler, ∀ v : ℚ, Scaler.scale s ≠ 0 →
      scalerInverse s (scalerTransform s v) = v) :=
  fold_standardization_no_leakage (fun l => l.sum) (fun _ => 1) (fun _ _ _ => 0) 1
    (fun _ : Nat => ([] : List ℚ)) (fun i : Nat => if i = 2 then [1] else [])
    (fun _ : Nat => (0 : ℚ)) (fun i : Nat => if i = 2 then 1 else 0)
    [0, 1] [2] (by decide) (by decide)

/-- C6: the entry point regression passes the literal string svr to
both strategy functions, so with regression_method set to nn every fold
still fits the SVR variant, although the strategy functions themselves
would honour the name (nn selects the network when passed directly).
This evaluates the dispatch at the failing input nn. -/
theorem regression_entry_ignores_method :
    regressionFoldRegressor "nn" "LIVE" = some Regressor.svr ∧
    regressionFoldRegressor "nn" "KONVID1K" = some Regressor.svr ∧
    liveFoldRegressor "nn" = some Regressor.nn ∧
    konvidFoldRegressor "nn" = some Regressor.nn := by
  refine ⟨?_, ?_, ?_, ?_⟩ <;> decide

/-- C7 counterexample: neither splitter construction passes a seed; the
random_state argument of both the GroupShuffleSplit at line 92 and the
KFold at line 168 is left at its default None, so the claim that the
splitting operations accept an explicit seed is false on the code as
written. -/
theorem splitters_random_state_is_none :
    liveGssArgs.random_state = none ∧ konvidKFoldArgs.random_state = none :=
  ⟨rfl, rfl⟩

/-- C7 amended: the splitters are constructed with n_splits=50 and
train_size=0.8 respectively n_splits=5 and shuffle=True, in both cases
without a random_state seed; the split outcome is a deterministic
function of the random draw alone, so runs coincide exactly when the
draws coincide, but the code itself exposes no seed to fix the draw. -/
theorem splitters_constructed_without_seed (n : Nat)
    (choiceA choiceB permsA permsB : Nat → List Nat)
    (hc : ∀ r, choiceA r = choiceB r) (hp : ∀ r, permsA r = permsB r) :
    liveGssArgs = { n_splits := 50, train_size := 8 / 10, random_state := none } ∧
    konvidKFoldArgs = { n_splits := 5, shuffle := true, random_state := none } ∧
    liveSplits choiceA = liveSplits choiceB ∧
    konvidFolds n permsA = konvidFolds n permsB := by
  refine ⟨rfl, rfl, ?_, ?_⟩
  · rw [liveSplits, liveSplits]
    exact List.map_congr_left (fun r _ => by rw [hc r])
  · rw [konvidFolds, konvidFolds]
    congr 1
    exact List.map_congr_left (fun r _ => by rw [hp r])

/-- Witness for splitters_constructed_without_seed with two equal
draws. -/
theorem splitters_constructed_without_seed_witness :
    liveGssArgs = { n_splits := 50, train_size := 8 / 10, random_state := none } ∧
    konvidKFoldArgs = { n_splits := 5, shuffle := true, random_state := none } ∧
    liveSplits (fun _ => [0, 1]) = liveSplits (fun _ => [0, 1]) ∧
    konvidFolds 1 (fun _ => [0]) = konvidFolds 1 (fun _ => [0]) :=
  splitters_constructed_without_seed 1 (fun _ => [0, 1]) (fun _ => [0, 1])
    (fun _ => [0]) (fun _ => [0]) (fun _ => rfl) (fun _ => rfl)

/-- C8: pooling an empty frame descriptor sequence fails with an
explicit DataShapeError for every pooling method, and never returns any
vector, in particular no silent zero vector. -/
theorem pool_empty_raises (pool_type : String) :
    pool_video [] pool_type =
      Except.error "DataShapeError: empty frame descriptor sequence" ∧
    ∀ v, pool_video [] pool_type ≠ Except.ok v := by
  refine ⟨rfl, ?_⟩
  intro v h
  simp [pool_video] at h

/-- Witness for pool_empty_raises at the concrete pooling method max. -/
theorem pool_empty_raises_witness :
    pool_video [] "max" =
      Except.error "DataShapeError: empty frame descriptor sequence" ∧
    ∀ v, pool_video [] "max" ≠ Except.ok v :=
  pool_empty_raises "max"

end FMCVQA

